import Mathlib

set_option maxHeartbeats 1000000

namespace GeoReview

/-- Runtime JavaScript/JSON values as manipulated by the API handlers and the
client loader. JSON has no `undefined`; an absent value is `Option.none` at
use sites. Numbers are modelled as integers (all ids and counts in the
program are integral). -/
inductive JsVal where
  | null
  | bool (b : Bool)
  | num (n : Int)
  | str (s : String)
  | arr (elems : List JsVal)
  | obj (members : List (String × JsVal))
deriving Repr

/-- JavaScript truthiness of a value (as used by `||` and `if`). -/
def truthy : JsVal → Bool
  | .null => false
  | .bool b => b
  | .num n => n != 0
  | .str s => s != ""
  | .arr _ => true
  | .obj _ => true

/-- JavaScript `a || b` where `a` may be `undefined` (`none`) and `b` is a
possibly-undefined value. -/
def jsOr (a b : Option JsVal) : Option JsVal :=
  match a with
  | some v => if truthy v then some v else b
  | none => b

/-- JavaScript `a || b` where the fallback `b` is always defined
(for example `f.id || i`). -/
def jsOrV (a : Option JsVal) (b : JsVal) : JsVal :=
  match a with
  | some v => if truthy v then v else b
  | none => b

mutual

/-- Comma-join of array elements, as `Array.prototype.toString` does. -/
def jsJoinList : List JsVal → String
  | [] => ""
  | [x] => jsArrElemStr x
  | x :: y :: xs => jsArrElemStr x ++ "," ++ jsJoinList (y :: xs)
termination_by xs => sizeOf xs

/-- One array element inside a join: `null` renders as the empty string,
every other value as its `String` coercion. -/
def jsArrElemStr : JsVal → String
  | .null => ""
  | .bool b => cond b "true" "false"
  | .num n => toString n
  | .str s => s
  | .arr xs => jsJoinList xs
  | .obj _ => "[object Object]"
termination_by v => sizeOf v

end

/-- JavaScript `String(v)` coercion. Arrays stringify by joining their
elements with commas; plain objects give the standard object tag. -/
def jsToString : JsVal → String
  | .null => "null"
  | .bool b => cond b "true" "false"
  | .num n => toString n
  | .str s => s
  | .arr xs => jsJoinList xs
  | .obj _ => "[object Object]"

/-- JavaScript `String(v)` where `v` may be `undefined` (`none`). -/
def jsToStringOpt : Option JsVal → String
  | none => "undefined"
  | some v => jsToString v

/-- Lookup of a key in an object's member list (JavaScript object keys are
unique; `find?` returns the binding if present). -/
def getProp (ms : List (String × JsVal)) (k : String) : Option JsVal :=
  (ms.find? (fun p => p.1 == k)).map (fun p => p.2)

/-- Adding the binding `k ↦ v` to an object literal that already spread `ms`
(`\x7b...ms, k: v\x7d`): an existing key keeps its position and gets the new
value, a fresh key is appended at the end. -/
def setProp (ms : List (String × JsVal)) (k : String) (v : JsVal) :
    List (String × JsVal) :=
  if ms.any (fun p => p.1 == k) then
    ms.map (fun p => if p.1 == k then (k, v) else p)
  else ms ++ [(k, v)]

/-- Own enumerable properties produced by spreading a value into an object
literal: objects contribute their members, arrays and strings their indexed
elements, primitives nothing. -/
def jsSpread : JsVal → List (String × JsVal)
  | .obj ms => ms
  | .arr xs => xs.enum.map (fun p => (toString p.1, p.2))
  | .str s => s.toList.enum.map (fun p => (toString p.1, .str (String.singleton p.2)))
  | _ => []

/-- Property access `v.k` on a non-null value (never throws). Arrays and
strings expose `length` and their indexed elements; other primitives have no
own properties of interest. -/
def jsMemberNN (v : JsVal) (k : String) : Option JsVal :=
  match v with
  | .null => none
  | .obj ms => getProp ms k
  | .arr xs => if k == "length" then some (.num (xs.length : Int)) else getProp (jsSpread v) k
  | .str s => if k == "length" then some (.num (s.length : Int)) else getProp (jsSpread v) k
  | _ => none

/-- Property access `v.k`: throws a TypeError (modelled as `Except.error`)
when `v` is `null`. -/
def jsMember (v : JsVal) (k : String) : Except Unit (Option JsVal) :=
  match v with
  | .null => .error ()
  | _ => .ok (jsMemberNN v k)

/-- Optional chaining `v?.k` on a possibly-undefined value: short-circuits to
`undefined` on `null`/`undefined`, otherwise plain access. -/
def jsOptChain (v : Option JsVal) (k : String) : Option JsVal :=
  match v with
  | none => none
  | some .null => none
  | some w => jsMemberNN w k

/-- JavaScript `Boolean(x)` where `x` is a possibly-undefined value. -/
def jsBoolean : Option JsVal → Bool
  | none => false
  | some v => truthy v

/-- Review row as stored in the `feature_reviews` table: `is_flagged` is an
SQLite INTEGER (0/1 as written by the handlers), `reviewed_at` a timestamp.
Timestamps are modelled as naturals ordered the way the stored ISO-8601
strings are. -/
structure ReviewRow where
  featureId : String
  layerId : String
  isFlagged : Int
  reviewedAt : Nat
deriving Repr, DecidableEq

/-- The lookup map built by the apply-flags handler,
`new Map(reviews.map(r => [r.featureId, r.isFlagged]))`: on duplicate keys
the last entry wins. -/
def buildFlagMap (reviews : List ReviewRow) (k : String) : Option Int :=
  (reviews.reverse.find? (fun r => r.featureId == k)).map (fun r => r.isFlagged)

/-- Id derivation of the Flag Bake-In Engine (layers.ts, apply-flags):
`const featureId = feature.id || feature.properties?.id` followed by the
`String(featureId)` coercion used for the flag-map lookup. Throws when the
feature element itself is `null`. -/
def bakeFeatureKey (feature : JsVal) : Except Unit String := do
  let fid ← jsMember feature "id"
  let props ← jsMember feature "properties"
  .ok (jsToStringOpt (jsOr fid (jsOptChain props "id")))

/-- One feature's transform in the apply-flags handler: builds
`\x7b ...feature, properties: \x7b ...feature.properties, isFlagged: Boolean(flagValue) \x7d \x7d`. -/
def bakeJsonFeature (m : String → Option Int) (feature : JsVal) : Except Unit JsVal := do
  let key ← bakeFeatureKey feature
  let props ← jsMember feature "properties"
  let flag := jsBoolean ((m key).map (fun n => JsVal.num n))
  let pspread := match props with
    | some p => jsSpread p
    | none => []
  .ok (.obj (setProp (jsSpread feature) "properties"
        (.obj (setProp pspread "isFlagged" (.bool flag)))))

/-- Mapping a possibly-throwing transform over an array
(`Array.prototype.map` with a callback that can raise): the first exception
aborts the whole map. -/
def mapExcept (f : JsVal → Except Unit JsVal) : List JsVal → Except Unit (List JsVal)
  | [] => .ok []
  | x :: xs => do
    let y ← f x
    let ys ← mapExcept f xs
    .ok (y :: ys)

/-- Closed form of the apply-flags id key for a non-null feature. -/
def bakeKeyNN (feature : JsVal) : String :=
  jsToStringOpt (jsOr (jsMemberNN feature "id")
    (jsOptChain (jsMemberNN feature "properties") "id"))

/-- Closed form of the spread of a feature's `properties` member. -/
def bakePropsNN (feature : JsVal) : List (String × JsVal) :=
  match jsMemberNN feature "properties" with
  | some p => jsSpread p
  | none => []

/-- Closed form of the flag value the transform writes for a feature. -/
def bakeFlag (m : String → Option Int) (feature : JsVal) : Bool :=
  jsBoolean ((m (bakeKeyNN feature)).map (fun n => JsVal.num n))

/-- Closed form of the transform's output on a non-null feature. -/
def bakedOf (m : String → Option Int) (feature : JsVal) : JsVal :=
  .obj (setProp (jsSpread feature) "properties"
    (.obj (setProp (bakePropsNN feature) "isFlagged" (.bool (bakeFlag m feature)))))

/-- HTTP status classes returned by the handlers under verification. -/
inductive HttpStatus where
  | ok200
  | notFound404
  | error500
deriving Repr, DecidableEq

/-- The three outcomes of `readFile` + `JSON.parse` on a layer's source
file. -/
inductive FileRead where
  | unreachable
  | malformed
  | parsed (geojson : JsVal)
deriving Repr

/-- Observable outcome of one apply-flags call: HTTP status class, the value
written to the layer's source file (`none` = no write ran), and the review
store after the call (the handler contains no INSERT/UPDATE/DELETE, so it is
passed through unchanged). -/
structure ApplyFlagsOutcome where
  status : HttpStatus
  written : Option JsVal
  reviewStore : List ReviewRow
deriving Repr

/-- The apply-flags route handler (layers.ts, POST /:id/apply-flags), beyond
the layer lookup: `layerFound` says whether `layerQueries.getById` returned a
row, `file` is the result of reading and parsing the source file, `reviews`
the rows `featureReviewQueries.getByLayerId` returned. -/
def applyFlags (layerFound : Bool) (file : FileRead) (reviews : List ReviewRow) :
    ApplyFlagsOutcome :=
  if layerFound then
    match file with
    | .unreachable => { status := .error500, written := none, reviewStore := reviews }
    | .malformed => { status := .error500, written := none, reviewStore := reviews }
    | .parsed geojson =>
      match geojson with
      | .null =>
        -- `geojson.features` throws on null, before any write
        { status := .error500, written := none, reviewStore := reviews }
      | .obj ms =>
        match getProp ms "features" with
        | some (.arr xs) =>
          -- features is truthy and an array: map the transform over it,
          -- assign the result back, write the file, return the new length
          match mapExcept (bakeJsonFeature (buildFlagMap reviews)) xs with
          | .error _ => { status := .error500, written := none, reviewStore := reviews }
          | .ok baked =>
            { status := .ok200,
              written := some (.obj (setProp ms "features" (.arr baked))),
              reviewStore := reviews }
        | some .null =>
          -- transform skipped; file written; `geojson.features.length` throws
          { status := .error500, written := some (.obj ms), reviewStore := reviews }
        | some _ =>
          -- transform skipped (features falsy or not an array); file
          -- written; `.length` of a non-null value does not throw
          { status := .ok200, written := some (.obj ms), reviewStore := reviews }
        | none =>
          -- transform skipped; file written; `.length` of undefined throws
          { status := .error500, written := some (.obj ms), reviewStore := reviews }
      | other =>
        -- non-object, non-null JSON: `geojson.features` is undefined, the
        -- transform is skipped, the file is rewritten, then
        -- `geojson.features.length` throws
        { status := .error500, written := some other, reviewStore := reviews }
  else
    { status := .notFound404, written := none, reviewStore := reviews }

/-- The Feature Source Loader's per-feature id assignment (map.tsx):
`data.features.map((f, i) => (\x7b ...f, id: f.id || i \x7d))`, one feature at
index `i`. -/
def loadFeature (f : JsVal) (i : Nat) : Except Unit JsVal := do
  let fid ← jsMember f "id"
  .ok (.obj (setProp (jsSpread f) "id" (jsOrV fid (.num (i : Int)))))

/-- The id value the Loader assigns to the feature at index `i`. -/
def loaderId (f : JsVal) (i : Nat) : Except Unit JsVal := do
  let fid ← jsMember f "id"
  .ok (jsOrV fid (.num (i : Int)))

/-- The Review Store key under which the client files a review for a loaded
feature: `String(currentFeature.id)` (map.tsx, handleToggleFlag). -/
def loaderKey (f : JsVal) (i : Nat) : Except Unit String :=
  (loaderId f i).map jsToString

/-- A row of the `layers` table: `visible` is an SQLite INTEGER. -/
structure LayerRow where
  id : String
  name : String
  url : String
  visible : Int
  color : Option String
deriving Repr, DecidableEq

/-- The create-layer handler (layers.ts, POST /): inserts a row with
`data.visible ? 1 : 0` and `data.color || null`. -/
def createLayerRow (id name url : String) (visible : Bool) (color : Option String) :
    LayerRow :=
  { id := id, name := name, url := url,
    visible := if visible then 1 else 0,
    color := match color with
      | some c => if c == "" then none else some c
      | none => none }

/-- The validated body of PUT /:id (updateLayerSchema): every field optional,
absent distinguished from an explicit value. -/
structure UpdateLayerInput where
  name : Option String
  url : Option String
  visible : Option Bool
  color : Option String
deriving Repr

/-- The update-layer handler's merge (layers.ts, PUT /:id): each column takes
the provided value when present (`data.x ?? existing.x`, and for visible and
color an explicit `!== undefined` test), otherwise it is re-derived from the
existing row (`existing.visible ? 1 : 0`). -/
def updateLayerRow (existing : LayerRow) (d : UpdateLayerInput) : LayerRow :=
  { id := existing.id,
    name := d.name.getD existing.name,
    url := d.url.getD existing.url,
    visible := match d.visible with
      | some b => if b then 1 else 0
      | none => if existing.visible != 0 then 1 else 0,
    color := match d.color with
      | some c => some c
      | none => existing.color }

/-- The two tables created in db.ts. -/
structure DbState where
  layers : List LayerRow
  reviews : List ReviewRow
deriving Repr

/-- layerQueries.getById: SELECT * FROM layers WHERE id = ?. -/
def getLayerById (s : DbState) (id : String) : Option LayerRow :=
  s.layers.find? (fun l => l.id == id)

/-- layerQueries.delete (DELETE FROM layers WHERE id = ?) together with the
schema's `FOREIGN KEY (layer_id) REFERENCES layers(id) ON DELETE CASCADE` on
feature_reviews. -/
def deleteLayerRows (s : DbState) (id : String) : DbState :=
  { layers := s.layers.filter (fun l => !(l.id == id)),
    reviews := s.reviews.filter (fun r => !(r.layerId == id)) }

/-- The delete-layer handler (layers.ts, DELETE /:id): 404 when the id is
absent, otherwise run the delete. -/
def deleteLayer (s : DbState) (id : String) : DbState × HttpStatus :=
  match getLayerById s id with
  | none => (s, .notFound404)
  | some _ => (deleteLayerRows s id, .ok200)

/-- featureReviewQueries.getByLayerId: SELECT ... WHERE layer_id = ?
(listForLayer). -/
def listForLayer (s : DbState) (layerId : String) : List ReviewRow :=
  s.reviews.filter (fun r => r.layerId == layerId)

/-- Row predicate for the composite primary key (feature_id, layer_id). -/
def keyMatch (featureId layerId : String) (r : ReviewRow) : Bool :=
  r.featureId == featureId && r.layerId == layerId

/-- featureReviewQueries.upsert: INSERT ... ON CONFLICT(feature_id, layer_id)
DO UPDATE SET is_flagged = excluded.is_flagged,
reviewed_at = excluded.reviewed_at. -/
def upsertReview (rows : List ReviewRow) (featureId layerId : String)
    (isFlagged : Int) (reviewedAt : Nat) : List ReviewRow :=
  if rows.any (keyMatch featureId layerId) then
    rows.map (fun r => if keyMatch featureId layerId r then
      { r with isFlagged := isFlagged, reviewedAt := reviewedAt } else r)
  else rows ++ [⟨featureId, layerId, isFlagged, reviewedAt⟩]

/-- featureReviewQueries.getByFeatureId: SELECT ... WHERE feature_id = ? AND
layer_id = ?. -/
def getReview (rows : List ReviewRow) (featureId layerId : String) : Option ReviewRow :=
  rows.find? (keyMatch featureId layerId)

/-- Number of stored rows carrying the composite key (featureId, layerId);
the PRIMARY KEY makes this at most one in any reachable store. -/
def keyCount (rows : List ReviewRow) (featureId layerId : String) : Nat :=
  (rows.filter (keyMatch featureId layerId)).length

/-- PUT /:layerId/:featureId (features routes): upserts with
`isFlagged ? 1 : 0` and reviewed_at = new Date().toISOString(). Returns the
new store and the RETURNING row. -/
def putFeatureReview (rows : List ReviewRow) (layerId featureId : String)
    (isFlagged : Bool) (now : Nat) : List ReviewRow × ReviewRow :=
  (upsertReview rows featureId layerId (if isFlagged then 1 else 0) now,
   ⟨featureId, layerId, if isFlagged then 1 else 0, now⟩)

/-- Response of GET /:layerId/:featureId: either the stored row or the
synthesized default object (isFlagged: false, reviewedAt: now) that is built
in the handler and never inserted. -/
inductive ReviewResponse where
  | stored (r : ReviewRow)
  | synthesized (featureId layerId : String) (isFlagged : Bool) (reviewedAt : Nat)
deriving Repr, DecidableEq

/-- GET /:layerId/:featureId (features routes): a read-only handler, the
store passes through unchanged. -/
def getFeatureReview (rows : List ReviewRow) (layerId featureId : String)
    (now : Nat) : List ReviewRow × ReviewResponse :=
  match getReview rows featureId layerId with
  | some r => (rows, .stored r)
  | none => (rows, .synthesized featureId layerId false now)

/-- The map view's navigation state (map.tsx): the loaded feature list and
`currentFeatureIndex`, an integer as in JavaScript. -/
structure CursorState where
  features : List JsVal
  position : Int
deriving Repr

/-- JavaScript strict equality on the primitive values the program uses as
ids; reference types compare by object identity, which distinct parsed
values never share. -/
def jsStrictEq : JsVal → JsVal → Bool
  | .null, .null => true
  | .bool a, .bool b => a == b
  | .num a, .num b => a == b
  | .str a, .str b => a == b
  | _, _ => false

/-- Strict equality on possibly-undefined values
(`undefined === undefined` holds). -/
def jsStrictEqOpt : Option JsVal → Option JsVal → Bool
  | none, none => true
  | some a, some b => jsStrictEq a b
  | _, _ => false

/-- The Loader's map over the fetched features, carrying the array index
`i`: `data.features.map((f, i) => (\x7b ...f, id: f.id || i \x7d))`. -/
def loadFeatureList (i : Nat) : List JsVal → Except Unit (List JsVal)
  | [] => .ok []
  | f :: fs => do
    let g ← loadFeature f i
    let gs ← loadFeatureList (i + 1) fs
    .ok (g :: gs)

/-- Loading a fetched collection (map.tsx useEffect): assigns ids with
`f.id || i` and resets currentFeatureIndex to 0. -/
def cursorLoad (fs : List JsVal) : Except Unit CursorState := do
  let loaded ← loadFeatureList 0 fs
  .ok { features := loaded, position := 0 }

/-- handleBack (map.tsx): decrement only while the index is positive. -/
def cursorBack (s : CursorState) : CursorState :=
  if s.position > 0 then { s with position := s.position - 1 } else s

/-- handleForward (map.tsx): increment only below features.length - 1. -/
def cursorForward (s : CursorState) : CursorState :=
  if s.position < (s.features.length : Int) - 1 then
    { s with position := s.position + 1 }
  else s

/-- features.findIndex((f) => f.id === feature.id): the first index whose id
is strictly equal to the target, or -1. Loaded features are objects, so the
`f.id` access never throws. -/
def jsFindIndexById (target : Option JsVal) : List JsVal → Int
  | [] => -1
  | f :: fs =>
    if jsStrictEqOpt (jsMemberNN f "id") target then 0
    else
      let r := jsFindIndexById target fs
      if r == -1 then -1 else r + 1

/-- onFeatureClick (map.tsx): move the cursor to the clicked feature when it
is found in the loaded list, otherwise leave the state alone. -/
def cursorJumpTo (s : CursorState) (targetId : Option JsVal) : CursorState :=
  let index := jsFindIndexById targetId s.features
  if index != -1 then { s with position := index } else s

/-! Helper lemmas about object-literal spreads with an overridden key. -/

theorem overwrite_pred_eq (k q : String) (v : JsVal) :
    ((fun p : String × JsVal => p.1 == q) ∘
      (fun p : String × JsVal => if p.1 == k then (k, v) else p)) =
      (fun p : String × JsVal => p.1 == q) := by
  funext p
  by_cases hpk : p.1 = k <;> simp [hpk]

theorem getProp_setProp_self (ms : List (String × JsVal)) (k : String) (v : JsVal) :
    getProp (setProp ms k v) k = some v := by
  unfold setProp getProp
  by_cases h : ms.any (fun p => p.1 == k)
  · rw [if_pos h, List.find?_map, overwrite_pred_eq]
    rcases List.any_eq_true.mp h with ⟨x, hx, hxk⟩
    cases hfind : ms.find? (fun p => p.1 == k) with
    | none =>
      exact absurd hxk (by simpa using List.find?_eq_none.mp hfind x hx)
    | some p0 =>
      have hp0 : p0.1 = k := by simpa using List.find?_some hfind
      simp [hp0]
  · rw [if_neg h, List.find?_append]
    have hnone : ms.find? (fun p => p.1 == k) = none := by
      refine List.find?_eq_none.mpr (fun x hx => ?_)
      intro hc
      exact h (List.any_eq_true.mpr ⟨x, hx, hc⟩)
    simp [hnone, List.find?]

theorem getProp_setProp_ne (ms : List (String × JsVal)) (k q : String) (v : JsVal)
    (hq : q ≠ k) : getProp (setProp ms k v) q = getProp ms q := by
  unfold setProp getProp
  by_cases h : ms.any (fun p => p.1 == k)
  · rw [if_pos h, List.find?_map, overwrite_pred_eq]
    cases hfind : ms.find? (fun p => p.1 == q) with
    | none => simp
    | some p0 =>
      have hp0 : p0.1 = q := by simpa using List.find?_some hfind
      have hne : ¬(p0.1 = k) := by
        rw [hp0]
        exact hq
      simp [hne]
  · rw [if_neg h, List.find?_append]
    have hkq : (k == q) = false := by
      simpa using Ne.symm hq
    have hlast : [(k, v)].find? (fun p => p.1 == q) = none := by
      simp only [List.find?]
      rw [hkq]
    simp [hlast]

theorem setProp_setProp_same (ms : List (String × JsVal)) (k : String) (v w : JsVal) :
    setProp (setProp ms k v) k w = setProp ms k w := by
  by_cases h : ms.any (fun p => p.1 == k)
  · unfold setProp
    have hany : (ms.map (fun p : String × JsVal => if p.1 == k then (k, v) else p)).any
        (fun p => p.1 == k) = true := by
      rw [List.any_map, overwrite_pred_eq]
      exact h
    rw [if_pos h, if_pos hany, if_pos h, List.map_map]
    have hcomp : ((fun p : String × JsVal => if p.1 == k then (k, w) else p) ∘
        (fun p : String × JsVal => if p.1 == k then (k, v) else p)) =
        (fun p : String × JsVal => if p.1 == k then (k, w) else p) := by
      funext p
      by_cases hpk : p.1 = k <;> simp [hpk]
    rw [hcomp]
  · unfold setProp
    have hany : ((ms ++ [(k, v)]).any (fun p => p.1 == k)) = true := by
      rw [List.any_append]
      simp [List.any]
    rw [if_neg h, if_pos hany, if_neg h, List.map_append]
    have hmap : ms.map (fun p : String × JsVal => if p.1 == k then (k, w) else p) = ms := by
      have hall : ∀ p ∈ ms,
          (fun p : String × JsVal => if p.1 == k then (k, w) else p) p =
          (fun p : String × JsVal => p) p := by
        intro p hp
        have hne : ¬(p.1 = k) := by
          intro hc
          exact h (List.any_eq_true.mpr ⟨p, hp, by simpa using hc⟩)
        simp [hne]
      rw [List.map_congr_left hall, List.map_id']
    rw [hmap]
    simp [List.map]

/-! Lemmas: the apply-flags transform in closed form, and its idempotence. -/

theorem bakeJsonFeature_nonnull (m : String → Option Int) (feature : JsVal)
    (hf : feature ≠ .null) : bakeJsonFeature m feature = .ok (bakedOf m feature) := by
  cases feature with
  | null => exact absurd rfl hf
  | bool b => rfl
  | num n => rfl
  | str s => rfl
  | arr xs => rfl
  | obj ms => rfl

theorem jsMemberNN_eq_spread (v : JsVal) (k : String) (hk : k ≠ "length") :
    jsMemberNN v k = getProp (jsSpread v) k := by
  have hk' : (k == "length") = false := by simpa using hk
  cases v with
  | null => rfl
  | bool b => rfl
  | num n => rfl
  | obj ms => rfl
  | arr xs =>
    simp only [jsMemberNN]
    rw [hk']
    simp
  | str s =>
    simp only [jsMemberNN]
    rw [hk']
    simp

theorem jsMemberNN_bakedOf_props (m : String → Option Int) (f : JsVal) :
    jsMemberNN (bakedOf m f) "properties" =
      some (.obj (setProp (bakePropsNN f) "isFlagged" (.bool (bakeFlag m f)))) :=
  getProp_setProp_self _ _ _

theorem jsMemberNN_bakedOf_id (m : String → Option Int) (f : JsVal) :
    jsMemberNN (bakedOf m f) "id" = jsMemberNN f "id" := by
  show getProp (setProp (jsSpread f) "properties"
    (.obj (setProp (bakePropsNN f) "isFlagged" (.bool (bakeFlag m f))))) "id" =
    jsMemberNN f "id"
  rw [getProp_setProp_ne _ _ _ _ (by decide),
    ← jsMemberNN_eq_spread f "id" (by decide)]

theorem optChain_props_eq (f : JsVal) (k : String) (hk : k ≠ "length") :
    jsOptChain (jsMemberNN f "properties") k = getProp (bakePropsNN f) k := by
  unfold bakePropsNN
  cases hp : jsMemberNN f "properties" with
  | none => rfl
  | some w =>
    cases w with
    | null => rfl
    | bool b => rfl
    | num n => rfl
    | obj ms => rfl
    | str s =>
      show jsMemberNN (.str s) k = _
      rw [jsMemberNN_eq_spread _ _ hk]
    | arr xs =>
      show jsMemberNN (.arr xs) k = _
      rw [jsMemberNN_eq_spread _ _ hk]

theorem bakeKeyNN_bakedOf (m : String → Option Int) (f : JsVal) :
    bakeKeyNN (bakedOf m f) = bakeKeyNN f := by
  unfold bakeKeyNN
  rw [jsMemberNN_bakedOf_id m f, jsMemberNN_bakedOf_props m f]
  have hchain : jsOptChain (some (.obj (setProp (bakePropsNN f) "isFlagged"
      (.bool (bakeFlag m f))))) "id" =
      jsOptChain (jsMemberNN f "properties") "id" := by
    show getProp (setProp (bakePropsNN f) "isFlagged" (.bool (bakeFlag m f))) "id" = _
    rw [getProp_setProp_ne _ _ _ _ (by decide), ← optChain_props_eq f "id" (by decide)]
  rw [hchain]

theorem bakedOf_idem (m : String → Option Int) (f : JsVal) :
    bakedOf m (bakedOf m f) = bakedOf m f := by
  have hflag : bakeFlag m (bakedOf m f) = bakeFlag m f := by
    unfold bakeFlag
    rw [bakeKeyNN_bakedOf m f]
  have hprops : bakePropsNN (bakedOf m f) =
      setProp (bakePropsNN f) "isFlagged" (.bool (bakeFlag m f)) := by
    unfold bakePropsNN
    rw [jsMemberNN_bakedOf_props m f]
    rfl
  show JsVal.obj (setProp (jsSpread (bakedOf m f)) "properties"
      (.obj (setProp (bakePropsNN (bakedOf m f)) "isFlagged"
        (.bool (bakeFlag m (bakedOf m f)))))) = bakedOf m f
  rw [hflag, hprops]
  show JsVal.obj (setProp (setProp (jsSpread f) "properties"
      (.obj (setProp (bakePropsNN f) "isFlagged" (.bool (bakeFlag m f))))) "properties"
      (.obj (setProp (setProp (bakePropsNN f) "isFlagged" (.bool (bakeFlag m f)))
        "isFlagged" (.bool (bakeFlag m f))))) = bakedOf m f
  rw [setProp_setProp_same, setProp_setProp_same]
  rfl

theorem bakedOf_ne_null (m : String → Option Int) (f : JsVal) :
    bakedOf m f ≠ .null := by
  unfold bakedOf
  intro hc
  cases hc

theorem bakeJsonFeature_idem (m : String → Option Int) (feature g : JsVal)
    (h : bakeJsonFeature m feature = .ok g) : bakeJsonFeature m g = .ok g := by
  by_cases hf : feature = JsVal.null
  · subst hf
    rw [show bakeJsonFeature m .null = .error () from rfl] at h
    cases h
  · rw [bakeJsonFeature_nonnull m feature hf] at h
    injection h with h'
    subst h'
    rw [bakeJsonFeature_nonnull m (bakedOf m feature) (bakedOf_ne_null m feature),
      bakedOf_idem m feature]

theorem mapExcept_bake_idem (m : String → Option Int) :
    ∀ xs ys : List JsVal, mapExcept (bakeJsonFeature m) xs = .ok ys →
      mapExcept (bakeJsonFeature m) ys = .ok ys := by
  intro xs
  induction xs with
  | nil =>
    intro ys h
    rw [show mapExcept (bakeJsonFeature m) [] = .ok [] from rfl] at h
    injection h with h'
    subst h'
    rfl
  | cons x xs ih =>
    intro ys h
    unfold mapExcept at h
    cases hx : bakeJsonFeature m x with
    | error e =>
      rw [hx] at h
      cases h
    | ok y =>
      rw [hx] at h
      cases hxs : mapExcept (bakeJsonFeature m) xs with
      | error e =>
        rw [hxs] at h
        cases h
      | ok ys' =>
        rw [hxs] at h
        have hys : y :: ys' = ys := by
          cases h
          rfl
        subst hys
        unfold mapExcept
        rw [bakeJsonFeature_idem m x y hx, ih ys' hxs]
        rfl

/-! Branch evaluations of the apply-flags handler. -/

theorem applyFlags_obj_arr (ms : List (String × JsVal)) (xs baked : List JsVal)
    (rs : List ReviewRow)
    (hfeat : getProp ms "features" = some (.arr xs))
    (hmap : mapExcept (bakeJsonFeature (buildFlagMap rs)) xs = .ok baked) :
    applyFlags true (.parsed (.obj ms)) rs =
      { status := .ok200,
        written := some (.obj (setProp ms "features" (.arr baked))),
        reviewStore := rs } := by
  simp [applyFlags, hfeat, hmap]

theorem applyFlags_obj_nofeat (ms : List (String × JsVal)) (rs : List ReviewRow)
    (hfeat : getProp ms "features" = none) :
    applyFlags true (.parsed (.obj ms)) rs =
      { status := .error500, written := some (.obj ms), reviewStore := rs } := by
  simp [applyFlags, hfeat]

/-! Claim theorems. -/

/-- C1: the claim that the Loader and the Bake-In Engine derive identical
feature ids is false on the code. For a feature with no native `id` member
the Loader assigns the positional index, so the review is stored under key
"0", while the Bake-In Engine falls back to `properties.id` — yielding the
key "undefined" when that is also absent, or that property's value ("A")
when present — so the stored decision is never found at bake time. -/
theorem loader_bake_key_mismatch :
    loaderKey (.obj [("type", .str "Feature"), ("properties", .obj [])]) 0 =
      .ok "0" ∧
    bakeFeatureKey (.obj [("type", .str "Feature"), ("properties", .obj [])]) =
      .ok "undefined" ∧
    loaderKey (.obj [("type", .str "Feature"),
      ("properties", .obj [("id", .str "A")])]) 0 = .ok "0" ∧
    bakeFeatureKey (.obj [("type", .str "Feature"),
      ("properties", .obj [("id", .str "A")])]) = .ok "A" :=
  ⟨rfl, rfl, rfl, rfl⟩

/-- C2: the claim that a failed bake-in call leaves the source file unchanged
is false on the code. On a layer whose source file parses as a JSON object
with no `features` array, the handler skips the transform, rewrites the file,
and only then throws reading `.length` of the missing array — so the call
reports a 500 error after an observable full write. The review store is
passed through untouched. -/
theorem applyFlags_error_after_write :
    applyFlags true (.parsed (.obj [("type", .str "FeatureCollection")])) [] =
      { status := .error500,
        written := some (.obj [("type", .str "FeatureCollection")]),
        reviewStore := [] } := rfl

/-- C3: bake-in is content-idempotent. If an apply-flags call on parsed
content `j` succeeds and writes `o`, then a second call reading `o` with the
same review store (no intervening upsert) succeeds and writes `o` again — in
particular every feature's `properties.isFlagged` value is unchanged by the
second run. -/
theorem bakeIn_content_idempotent (j o : JsVal) (rs : List ReviewRow)
    (h1 : (applyFlags true (.parsed j) rs).status = .ok200)
    (h2 : (applyFlags true (.parsed j) rs).written = some o) :
    (applyFlags true (.parsed o) rs).status = .ok200 ∧
    (applyFlags true (.parsed o) rs).written = some o := by
  cases j with
  | null => simp [applyFlags] at h1
  | bool b => simp [applyFlags] at h1
  | num n => simp [applyFlags] at h1
  | str s => simp [applyFlags] at h1
  | arr xs => simp [applyFlags] at h1
  | obj ms =>
    cases hfeat : getProp ms "features" with
    | none =>
      rw [applyFlags_obj_nofeat ms rs hfeat] at h1
      simp at h1
    | some fv =>
      cases fv with
      | arr xs =>
        cases hmap : mapExcept (bakeJsonFeature (buildFlagMap rs)) xs with
        | error e => simp [applyFlags, hfeat, hmap] at h1
        | ok baked =>
          rw [applyFlags_obj_arr ms xs baked rs hfeat hmap] at h2
          simp at h2
          subst h2
          have hfeat2 : getProp (setProp ms "features" (.arr baked)) "features" =
              some (.arr baked) := getProp_setProp_self _ _ _
          have hmap2 := mapExcept_bake_idem (buildFlagMap rs) xs baked hmap
          rw [applyFlags_obj_arr (setProp ms "features" (.arr baked)) baked baked rs
            hfeat2 hmap2]
          refine ⟨rfl, ?_⟩
          simp [setProp_setProp_same]
      | null => simp [applyFlags, hfeat] at h1
      | bool b =>
        have heval : applyFlags true (.parsed (.obj ms)) rs =
            { status := .ok200, written := some (.obj ms), reviewStore := rs } := by
          simp [applyFlags, hfeat]
        rw [heval] at h2
        simp at h2
        subst h2
        rw [heval]
        exact ⟨rfl, rfl⟩
      | num n =>
        have heval : applyFlags true (.parsed (.obj ms)) rs =
            { status := .ok200, written := some (.obj ms), reviewStore := rs } := by
          simp [applyFlags, hfeat]
        rw [heval] at h2
        simp at h2
        subst h2
        rw [heval]
        exact ⟨rfl, rfl⟩
      | str s =>
        have heval : applyFlags true (.parsed (.obj ms)) rs =
            { status := .ok200, written := some (.obj ms), reviewStore := rs } := by
          simp [applyFlags, hfeat]
        rw [heval] at h2
        simp at h2
        subst h2
        rw [heval]
        exact ⟨rfl, rfl⟩
      | obj ms2 =>
        have heval : applyFlags true (.parsed (.obj ms)) rs =
            { status := .ok200, written := some (.obj ms), reviewStore := rs } := by
          simp [applyFlags, hfeat]
        rw [heval] at h2
        simp at h2
        subst h2
        rw [heval]
        exact ⟨rfl, rfl⟩

/-- Witness for C3 at a one-feature collection with a stored flag. -/
theorem bakeIn_content_idempotent_witness :
    (applyFlags true (.parsed (.obj [("type", .str "FeatureCollection"),
      ("features", .arr [.obj [("id", .str "a"),
        ("properties", .obj [("isFlagged", .bool true)])]])]))
      [⟨"a", "L", 1, 0⟩]).status = .ok200 ∧
    (applyFlags true (.parsed (.obj [("type", .str "FeatureCollection"),
      ("features", .arr [.obj [("id", .str "a"),
        ("properties", .obj [("isFlagged", .bool true)])]])]))
      [⟨"a", "L", 1, 0⟩]).written =
      some (.obj [("type", .str "FeatureCollection"),
        ("features", .arr [.obj [("id", .str "a"),
          ("properties", .obj [("isFlagged", .bool true)])]])]) :=
  bakeIn_content_idempotent
    (.obj [("type", .str "FeatureCollection"),
      ("features", .arr [.obj [("id", .str "a"),
        ("properties", .obj [("isFlagged", .bool true)])]])])
    (.obj [("type", .str "FeatureCollection"),
      ("features", .arr [.obj [("id", .str "a"),
        ("properties", .obj [("isFlagged", .bool true)])]])])
    [⟨"a", "L", 1, 0⟩] rfl rfl

/-! Review-store lemmas: the upsert's effect on the composite key. -/

theorem keyMatch_comp_upd (fid lid : String) (f : Int) (t : Nat) :
    (keyMatch fid lid ∘ fun r => if keyMatch fid lid r then
      { r with isFlagged := f, reviewedAt := t } else r) = keyMatch fid lid := by
  funext r
  by_cases h : keyMatch fid lid r = true
  · show keyMatch fid lid (if keyMatch fid lid r then
      { r with isFlagged := f, reviewedAt := t } else r) = keyMatch fid lid r
    rw [if_pos h]
    rfl
  · show keyMatch fid lid (if keyMatch fid lid r then
      { r with isFlagged := f, reviewedAt := t } else r) = keyMatch fid lid r
    rw [if_neg h]

theorem keyCount_upsert (rows : List ReviewRow) (fid lid : String) (f : Int) (t : Nat)
    (h : keyCount rows fid lid ≤ 1) :
    keyCount (upsertReview rows fid lid f t) fid lid = 1 := by
  unfold keyCount at h ⊢
  unfold upsertReview
  by_cases hany : rows.any (keyMatch fid lid)
  · rw [if_pos hany, List.filter_map, keyMatch_comp_upd, List.length_map]
    have hge : 1 ≤ (rows.filter (keyMatch fid lid)).length := by
      rcases List.any_eq_true.mp hany with ⟨r, hr, hrk⟩
      have hmem : r ∈ rows.filter (keyMatch fid lid) := List.mem_filter.mpr ⟨hr, hrk⟩
      exact List.length_pos.mpr (List.ne_nil_of_mem hmem)
    omega
  · rw [if_neg hany, List.filter_append]
    have h1 : rows.filter (keyMatch fid lid) = [] := by
      rw [List.filter_eq_nil_iff]
      intro a ha hc
      exact hany (List.any_eq_true.mpr ⟨a, ha, hc⟩)
    rw [h1]
    simp [keyMatch]

theorem getReview_upsert (rows : List ReviewRow) (fid lid : String) (f : Int) (t : Nat) :
    getReview (upsertReview rows fid lid f t) fid lid = some ⟨fid, lid, f, t⟩ := by
  unfold getReview upsertReview
  by_cases hany : rows.any (keyMatch fid lid)
  · rw [if_pos hany, List.find?_map, keyMatch_comp_upd]
    rcases List.any_eq_true.mp hany with ⟨r, hr, hrk⟩
    cases hfind : rows.find? (keyMatch fid lid) with
    | none => exact absurd hrk (by simpa using List.find?_eq_none.mp hfind r hr)
    | some r0 =>
      have hk := List.find?_some hfind
      have hids : r0.featureId = fid ∧ r0.layerId = lid := by
        unfold keyMatch at hk
        simpa using hk
      cases r0
      simp_all [keyMatch]
  · rw [if_neg hany, List.find?_append]
    have h1 : rows.find? (keyMatch fid lid) = none :=
      List.find?_eq_none.mpr (fun a ha hc => hany (List.any_eq_true.mpr ⟨a, ha, hc⟩))
    rw [h1]
    simp [List.find?, keyMatch]

theorem listForLayer_deleteLayerRows (s : DbState) (L : String) :
    listForLayer (deleteLayerRows s L) L = [] := by
  unfold listForLayer deleteLayerRows
  rw [List.filter_eq_nil_iff]
  intro r hr hc
  have hmem := List.mem_filter.mp hr
  rw [hc] at hmem
  exact absurd hmem.2 (by simp)

/-- C4: deleting an existing layer succeeds and removes every review record
keyed by that layer, so listing the layer's reviews after the deletion
returns the empty list (the declared ON DELETE CASCADE). -/
theorem deleteLayer_cascade (s : DbState) (L : String)
    (h : (getLayerById s L).isSome = true) :
    (deleteLayer s L).2 = .ok200 ∧ listForLayer (deleteLayer s L).1 L = [] := by
  cases hget : getLayerById s L with
  | none =>
    rw [hget] at h
    exact Bool.noConfusion h
  | some row =>
    unfold deleteLayer
    rw [hget]
    exact ⟨rfl, listForLayer_deleteLayerRows s L⟩

/-- Witness for C4 on a one-layer, one-review store. -/
theorem deleteLayer_cascade_witness :
    (deleteLayer ⟨[⟨"L", "n", "u", 1, none⟩], [⟨"f", "L", 1, 0⟩]⟩ "L").2 = .ok200 ∧
    listForLayer (deleteLayer ⟨[⟨"L", "n", "u", 1, none⟩], [⟨"f", "L", 1, 0⟩]⟩ "L").1
      "L" = [] :=
  deleteLayer_cascade ⟨[⟨"L", "n", "u", 1, none⟩], [⟨"f", "L", 1, 0⟩]⟩ "L" rfl

/-- C5: upserting (L, F, true) twice leaves exactly one stored record for the
composite key, flagged, carrying the second call's timestamp; with a
monotonic clock (t1 ≤ t2) the reviewedAt after the second call is at least
the value after the first — the timestamp is refreshed even though isFlagged
is unchanged. -/
theorem upsert_twice (rs : List ReviewRow) (L F : String) (t1 t2 : Nat)
    (hk : keyCount rs F L ≤ 1) (ht : t1 ≤ t2) :
    keyCount (putFeatureReview (putFeatureReview rs L F true t1).1 L F true t2).1
      F L = 1 ∧
    getReview (putFeatureReview rs L F true t1).1 F L = some ⟨F, L, 1, t1⟩ ∧
    getReview (putFeatureReview (putFeatureReview rs L F true t1).1 L F true t2).1
      F L = some ⟨F, L, 1, t2⟩ ∧
    (∀ r1 r2, getReview (putFeatureReview rs L F true t1).1 F L = some r1 →
      getReview (putFeatureReview (putFeatureReview rs L F true t1).1 L F true t2).1
        F L = some r2 → r1.reviewedAt ≤ r2.reviewedAt) := by
  have h1 := getReview_upsert rs F L 1 t1
  have hc1 : keyCount (upsertReview rs F L 1 t1) F L = 1 :=
    keyCount_upsert rs F L 1 t1 hk
  have h2 := getReview_upsert (upsertReview rs F L 1 t1) F L 1 t2
  have hc2 : keyCount (upsertReview (upsertReview rs F L 1 t1) F L 1 t2) F L = 1 :=
    keyCount_upsert _ F L 1 t2 (by rw [hc1])
  refine ⟨hc2, h1, h2, ?_⟩
  intro r1 r2 hr1 hr2
  have hr1' : getReview (upsertReview rs F L 1 t1) F L = some r1 := hr1
  have hr2' : getReview (upsertReview (upsertReview rs F L 1 t1) F L 1 t2) F L =
      some r2 := hr2
  rw [h1] at hr1'
  rw [h2] at hr2'
  injection hr1' with e1
  injection hr2' with e2
  rw [← e1, ← e2]
  exact ht

/-- Witness for C5 on the empty store. -/
theorem upsert_twice_witness :
    keyCount (putFeatureReview (putFeatureReview [] "L" "F" true 3).1 "L" "F" true 7).1
      "F" "L" = 1 ∧
    getReview (putFeatureReview [] "L" "F" true 3).1 "F" "L" = some ⟨"F", "L", 1, 3⟩ ∧
    getReview (putFeatureReview (putFeatureReview [] "L" "F" true 3).1 "L" "F" true 7).1
      "F" "L" = some ⟨"F", "L", 1, 7⟩ ∧
    (∀ r1 r2, getReview (putFeatureReview [] "L" "F" true 3).1 "F" "L" = some r1 →
      getReview (putFeatureReview (putFeatureReview [] "L" "F" true 3).1 "L" "F"
        true 7).1 "F" "L" = some r2 → r1.reviewedAt ≤ r2.reviewedAt) :=
  upsert_twice [] "L" "F" 3 7 (by decide) (by omega)

/-- C6: with no stored record for (F, L), the get-review handler returns the
synthesized default — isFlagged false, reviewedAt the current time — and the
store is returned unchanged (the default is never written). -/
theorem getForFeature_default (rs : List ReviewRow) (L F : String) (now : Nat)
    (h : ∀ r ∈ rs, keyMatch F L r = false) :
    getFeatureReview rs L F now = (rs, .synthesized F L false now) := by
  unfold getFeatureReview getReview
  have hnone : rs.find? (keyMatch F L) = none :=
    List.find?_eq_none.mpr (fun a ha hc => by rw [h a ha] at hc; cases hc)
  rw [hnone]

/-- Witness for C6 on a store holding only an unrelated feature's record. -/
theorem getForFeature_default_witness :
    getFeatureReview [⟨"g", "L", 1, 3⟩] "L" "f" 9 =
      ([⟨"g", "L", 1, 3⟩], .synthesized "f" "L" false 9) :=
  getForFeature_default [⟨"g", "L", 1, 3⟩] "L" "f" 9 (by decide)

/-- C8: the layer update applies exactly the provided fields; every
unspecified field keeps its prior value (with the 0/1 encoding of visible
re-derived but unchanged), and in particular creating a layer visible and
then updating with only visible=false flips visible while name, sourceRef
and color keep their created values. -/
theorem update_frame (ex : LayerRow) (d : UpdateLayerInput)
    (hvis : ex.visible = 0 ∨ ex.visible = 1) :
    (updateLayerRow ex d).id = ex.id ∧
    (d.name = none → (updateLayerRow ex d).name = ex.name) ∧
    (d.url = none → (updateLayerRow ex d).url = ex.url) ∧
    (d.visible = none → (updateLayerRow ex d).visible = ex.visible) ∧
    (d.color = none → (updateLayerRow ex d).color = ex.color) ∧
    (∀ b, d.visible = some b →
      (updateLayerRow ex d).visible = (if b then 1 else 0)) ∧
    (∀ i n u c, updateLayerRow (createLayerRow i n u true c)
      ⟨none, none, some false, none⟩ =
      { createLayerRow i n u true c with visible := 0 }) := by
  refine ⟨rfl, ?_, ?_, ?_, ?_, ?_, ?_⟩
  · intro hn
    simp [updateLayerRow, hn]
  · intro hu
    simp [updateLayerRow, hu]
  · intro hv
    simp only [updateLayerRow, hv]
    rcases hvis with h0 | h1
    · simp [h0]
    · simp [h1]
  · intro hc
    simp [updateLayerRow, hc]
  · intro b hb
    simp [updateLayerRow, hb]
  · intro i n u c
    simp [updateLayerRow, createLayerRow]

/-- Witness for C8: concrete create-then-update-visible scenario. -/
theorem update_frame_witness :
    updateLayerRow (createLayerRow "i" "n" "u" true (some "red"))
      ⟨none, none, some false, none⟩ =
      { createLayerRow "i" "n" "u" true (some "red") with visible := 0 } :=
  (update_frame (createLayerRow "i" "n" "u" true (some "red"))
    ⟨none, none, some false, none⟩ (Or.inr rfl)).2.2.2.2.2.2 "i" "n" "u" (some "red")

/-- C10: the Loader treats a falsy native id (the number 0 or the empty
string) as absent: the assigned id is the positional index, so the native id
survives the assignment only when it already equals its position as a
number. -/
theorem loader_falsy_native_id (ms : List (String × JsVal)) (v : JsVal) (i : Nat)
    (hid : getProp ms "id" = some v) (hfalsy : truthy v = false) :
    loaderId (.obj ms) i = .ok (.num (i : Int)) ∧
    (loaderId (.obj ms) i = .ok v → v = .num (i : Int)) := by
  have hres : loaderId (.obj ms) i = .ok (jsOrV (some v) (.num (i : Int))) := by
    unfold loaderId
    have hmem : jsMember (.obj ms) "id" = .ok (some v) := by
      simp [jsMember, jsMemberNN, hid]
    rw [hmem]
    rfl
  have hor : jsOrV (some v) (.num (i : Int)) = .num (i : Int) := by
    unfold jsOrV
    simp [hfalsy]
  constructor
  · rw [hres, hor]
  · intro hpres
    rw [hres, hor] at hpres
    injection hpres with e
    exact e.symm

/-- Witness for C10: native id 0 at position 5 becomes 5. -/
theorem loader_falsy_native_id_witness :
    loaderId (.obj [("id", .num 0)]) 5 = .ok (.num (5 : Int)) ∧
    (loaderId (.obj [("id", .num 0)]) 5 = .ok (.num 0) →
      JsVal.num 0 = .num (5 : Int)) :=
  loader_falsy_native_id [("id", .num 0)] (.num 0) 5 rfl rfl

/-! Cursor lemmas. -/

theorem jsFindIndexById_bounds (t : Option JsVal) (fs : List JsVal) :
    jsFindIndexById t fs = -1 ∨
      (0 ≤ jsFindIndexById t fs ∧ jsFindIndexById t fs < (fs.length : Int)) := by
  induction fs with
  | nil => exact Or.inl rfl
  | cons f fs ih =>
    unfold jsFindIndexById
    by_cases h : jsStrictEqOpt (jsMemberNN f "id") t = true
    · rw [if_pos h]
      right
      refine ⟨le_refl 0, ?_⟩
      simp only [List.length_cons]
      omega
    · rw [if_neg h]
      rcases ih with hi | ⟨hi0, hilt⟩
      · left
        simp [hi]
      · right
        have hne : (jsFindIndexById t fs == -1) = false := by
          simp only [beq_eq_false_iff_ne, ne_eq]
          omega
        simp only [hne, Bool.false_eq_true, if_false, List.length_cons]
        constructor
        · omega
        · omega

theorem loadFeatureList_length (fs : List JsVal) :
    ∀ (i : Nat) (gs : List JsVal), loadFeatureList i fs = .ok gs →
      gs.length = fs.length := by
  induction fs with
  | nil =>
    intro i gs h
    rw [show loadFeatureList i [] = .ok [] from rfl] at h
    injection h with h'
    subst h'
    rfl
  | cons f fs ih =>
    intro i gs h
    unfold loadFeatureList at h
    cases hf : loadFeature f i with
    | error e =>
      rw [hf] at h
      cases h
    | ok g =>
      rw [hf] at h
      cases hfs : loadFeatureList (i + 1) fs with
      | error e =>
        rw [hfs] at h
        cases h
      | ok gs' =>
        rw [hfs] at h
        have hg : g :: gs' = gs := by
          cases h
          rfl
        subst hg
        simp [ih (i + 1) gs' hfs]

/-- C7: on a cursor whose position satisfies the invariant
`0 <= position < length`, every navigation operation preserves the
invariant; loading a non-empty list establishes it; back() at position 0 and
forward() at position length-1 are exact no-ops (no error, no wrap). -/
theorem cursor_navigation_invariant (s : CursorState) (t : Option JsVal)
    (fs : List JsVal) (c : CursorState)
    (hpos0 : 0 ≤ s.position) (hposlt : s.position < (s.features.length : Int)) :
    (0 ≤ (cursorBack s).position ∧
      (cursorBack s).position < ((cursorBack s).features.length : Int)) ∧
    (0 ≤ (cursorForward s).position ∧
      (cursorForward s).position < ((cursorForward s).features.length : Int)) ∧
    (0 ≤ (cursorJumpTo s t).position ∧
      (cursorJumpTo s t).position < ((cursorJumpTo s t).features.length : Int)) ∧
    (cursorLoad fs = .ok c → fs ≠ [] →
      0 ≤ c.position ∧ c.position < (c.features.length : Int)) ∧
    (s.position = 0 → cursorBack s = s) ∧
    (s.position = (s.features.length : Int) - 1 → cursorForward s = s) := by
  refine ⟨?_, ?_, ?_, ?_, ?_, ?_⟩
  · unfold cursorBack
    by_cases h : s.position > 0
    · rw [if_pos h]
      constructor
      · simp only []
        omega
      · simp only []
        omega
    · rw [if_neg h]
      exact ⟨hpos0, hposlt⟩
  · unfold cursorForward
    by_cases h : s.position < (s.features.length : Int) - 1
    · rw [if_pos h]
      constructor
      · simp only []
        omega
      · simp only []
        omega
    · rw [if_neg h]
      exact ⟨hpos0, hposlt⟩
  · unfold cursorJumpTo
    rcases jsFindIndexById_bounds t s.features with hneg | ⟨h0, hlt⟩
    · simp only [hneg]
      simp
      exact ⟨hpos0, hposlt⟩
    · have hne : (jsFindIndexById t s.features != -1) = true := by
        simp only [bne_iff_ne, ne_eq]
        omega
      simp only [hne, if_true]
      exact ⟨h0, hlt⟩
  · intro hload hfs
    unfold cursorLoad at hload
    cases hl : loadFeatureList 0 fs with
    | error e =>
      rw [hl] at hload
      cases hload
    | ok gs =>
      rw [hl] at hload
      have hc : ({ features := gs, position := 0 } : CursorState) = c := by
        cases hload
        rfl
      subst hc
      refine ⟨le_refl 0, ?_⟩
      simp only [loadFeatureList_length fs 0 gs hl]
      cases fs with
      | nil => exact absurd rfl hfs
      | cons a l =>
        simp only [List.length_cons]
        omega
  · intro h0
    unfold cursorBack
    rw [if_neg (by omega)]
  · intro hlast
    unfold cursorForward
    rw [if_neg (by omega)]

/-- Witness for C7 on a one-feature cursor at position 0. -/
theorem cursor_navigation_invariant_witness :
    (0 ≤ (cursorBack ⟨[.obj [("id", .num 0)]], 0⟩).position ∧
      (cursorBack ⟨[.obj [("id", .num 0)]], 0⟩).position <
        ((cursorBack ⟨[.obj [("id", .num 0)]], 0⟩).features.length : Int)) ∧
    (0 ≤ (cursorForward ⟨[.obj [("id", .num 0)]], 0⟩).position ∧
      (cursorForward ⟨[.obj [("id", .num 0)]], 0⟩).position <
        ((cursorForward ⟨[.obj [("id", .num 0)]], 0⟩).features.length : Int)) ∧
    (0 ≤ (cursorJumpTo ⟨[.obj [("id", .num 0)]], 0⟩ none).position ∧
      (cursorJumpTo ⟨[.obj [("id", .num 0)]], 0⟩ none).position <
        ((cursorJumpTo ⟨[.obj [("id", .num 0)]], 0⟩ none).features.length : Int)) ∧
    (cursorLoad [.obj []] = .ok ⟨[.obj [("id", .num (0 : Int))]], 0⟩ →
      [(.obj [] : JsVal)] ≠ [] →
      0 ≤ (⟨[.obj [("id", .num (0 : Int))]], 0⟩ : CursorState).position ∧
        (⟨[.obj [("id", .num (0 : Int))]], 0⟩ : CursorState).position <
          ((⟨[.obj [("id", .num (0 : Int))]], 0⟩ : CursorState).features.length : Int)) ∧
    ((⟨[.obj [("id", .num 0)]], 0⟩ : CursorState).position = 0 →
      cursorBack ⟨[.obj [("id", .num 0)]], 0⟩ = ⟨[.obj [("id", .num 0)]], 0⟩) ∧
    ((⟨[.obj [("id", .num 0)]], 0⟩ : CursorState).position =
        (((⟨[.obj [("id", .num 0)]], 0⟩ : CursorState).features.length : Int)) - 1 →
      cursorForward ⟨[.obj [("id", .num 0)]], 0⟩ = ⟨[.obj [("id", .num 0)]], 0⟩) :=
  cursor_navigation_invariant ⟨[.obj [("id", .num 0)]], 0⟩ none [.obj []]
    ⟨[.obj [("id", .num (0 : Int))]], 0⟩ (by decide) (by decide)

/-! Frame lemmas for the bake transform. -/

theorem jsMemberNN_bakedOf_ne (m : String → Option Int) (f : JsVal) (k : String)
    (hk : k ≠ "properties") : jsMemberNN (bakedOf m f) k = getProp (jsSpread f) k := by
  show getProp (setProp (jsSpread f) "properties"
    (.obj (setProp (bakePropsNN f) "isFlagged" (.bool (bakeFlag m f))))) k = _
  exact getProp_setProp_ne _ _ _ _ hk

/-- C9: a successful bake touches only `properties.isFlagged`. On an object
feature, every member other than `properties` (in particular `id` and
`geometry`) is unchanged, every property of a properties object other than
`isFlagged` is unchanged, and on the collection every member other than the
`features` array survives into the written file unchanged. -/
theorem bakeIn_frame (m : String → Option Int) (ms ps : List (String × JsVal))
    (g : JsVal)
    (hprops : getProp ms "properties" = some (.obj ps) ∨
      getProp ms "properties" = none)
    (h : bakeJsonFeature m (.obj ms) = .ok g) :
    (∀ k, k ≠ "properties" → jsMemberNN g k = getProp ms k) ∧
    (∀ k, k ≠ "isFlagged" →
      jsOptChain (jsMemberNN g "properties") k =
        jsOptChain (getProp ms "properties") k) ∧
    (∀ cs rs o, (applyFlags true (.parsed (.obj cs)) rs).written = some o →
      ∃ csW, o = .obj csW ∧ ∀ k, k ≠ "features" → getProp csW k = getProp cs k) := by
  rw [bakeJsonFeature_nonnull m (.obj ms) (by intro hc; cases hc)] at h
  injection h with h'
  subst h'
  refine ⟨?_, ?_, ?_⟩
  · intro k hk
    rw [jsMemberNN_bakedOf_ne m (.obj ms) k hk]
    rfl
  · intro k hk
    rw [jsMemberNN_bakedOf_props m (.obj ms)]
    show getProp (setProp (bakePropsNN (.obj ms)) "isFlagged"
      (.bool (bakeFlag m (.obj ms)))) k = _
    rw [getProp_setProp_ne _ _ _ _ hk]
    unfold bakePropsNN
    rcases hprops with hp | hp
    · rw [show jsMemberNN (.obj ms) "properties" = getProp ms "properties" from rfl, hp]
      rfl
    · rw [show jsMemberNN (.obj ms) "properties" = getProp ms "properties" from rfl, hp]
      rfl
  · intro cs rs o hw
    cases hfeat : getProp cs "features" with
    | none =>
      rw [applyFlags_obj_nofeat cs rs hfeat] at hw
      simp at hw
      subst hw
      exact ⟨cs, rfl, fun k hk => rfl⟩
    | some fv =>
      cases fv with
      | arr xs =>
        cases hmap : mapExcept (bakeJsonFeature (buildFlagMap rs)) xs with
        | error e => simp [applyFlags, hfeat, hmap] at hw
        | ok baked =>
          rw [applyFlags_obj_arr cs xs baked rs hfeat hmap] at hw
          simp at hw
          subst hw
          exact ⟨setProp cs "features" (.arr baked), rfl,
            fun k hk => getProp_setProp_ne _ _ _ _ hk⟩
      | null =>
        simp [applyFlags, hfeat] at hw
        subst hw
        exact ⟨cs, rfl, fun k hk => rfl⟩
      | bool b =>
        simp [applyFlags, hfeat] at hw
        subst hw
        exact ⟨cs, rfl, fun k hk => rfl⟩
      | num n =>
        simp [applyFlags, hfeat] at hw
        subst hw
        exact ⟨cs, rfl, fun k hk => rfl⟩
      | str s2 =>
        simp [applyFlags, hfeat] at hw
        subst hw
        exact ⟨cs, rfl, fun k hk => rfl⟩
      | obj ms2 =>
        simp [applyFlags, hfeat] at hw
        subst hw
        exact ⟨cs, rfl, fun k hk => rfl⟩

/-- Witness for C9: geometry of a flagged feature is untouched by a bake. -/
theorem bakeIn_frame_witness :
    jsMemberNN (.obj [("id", .str "a"), ("geometry", .null),
      ("properties", .obj [("p", .num 1), ("isFlagged", .bool false)])]) "geometry" =
      getProp [("id", .str "a"), ("geometry", .null),
        ("properties", .obj [("p", .num 1)])] "geometry" :=
  (bakeIn_frame (fun _ => none)
    [("id", .str "a"), ("geometry", .null), ("properties", .obj [("p", .num 1)])]
    [("p", .num 1)]
    (.obj [("id", .str "a"), ("geometry", .null),
      ("properties", .obj [("p", .num 1), ("isFlagged", .bool false)])])
    (Or.inl rfl) rfl).1 "geometry" (by decide)

end GeoReview
